import Mathlib

/-!
A shallow embedding of the iptsd sources:
  src/core/generic/application.hpp (orchestrator),
  src/daemon/devices.cpp (device manager and uinput device setup),
  src/debug/calibrate.cpp (read loop with the continuous-error counter).

Machine floating point (f64) is modelled by exact rational arithmetic; machine
integers by Nat/Int. Components of the repository whose sources are not
available here (cone.hpp, parser.hpp, dft.hpp, finder.hpp) are either kept
abstract (function-valued parameters) or modelled from the spec, as marked.
-/

namespace Iptsd

/-- Device coordinate range along X. Modelled from the spec: the constant
IPTS_MAX_X lives in src/ipts/protocol.h, which is not among the sources; the
spec names the 9600-class value. -/
def IPTS_MAX_X : Int := 9600

/-- Device coordinate range along Y. Modelled from the spec: the constant
IPTS_MAX_Y lives in src/ipts/protocol.h, which is not among the sources; the
spec names the 7200-class value. -/
def IPTS_MAX_Y : Int := 7200

/-- The core configuration (src/core/generic/config.hpp is not among the
sources; the fields used by application.hpp are taken from the spec's Config
description). Width and height are physical extents, modelled as rationals
since application.hpp uses them in f64 arithmetic. -/
structure Config where
  width : ℚ
  height : ℚ
  touch_check_cone : Bool
  cone_angle : ℚ
  cone_distance : ℚ
deriving DecidableEq

/-- The rejection cone state. Modelled from the spec: cone.hpp is not among
the sources. State per spec 4.E: origin (last stylus position), direction
(aggregated from palm contacts), and alive (has ever received a stylus
position). Timestamps are abstracted into the ConeFuns.active predicate. -/
structure Cone where
  origin : ℚ × ℚ
  direction : ℚ × ℚ
  alive : Bool
deriving DecidableEq

/-- The cone operations whose numeric internals (exponential smoothing of the
direction, the angular inside-the-cone test, the activity timeout) live in
cone.hpp, which is not among the sources. They are kept abstract: the claims
about the orchestrator only depend on which cone operations are called where. -/
structure ConeFuns where
  blend : ℚ × ℚ → ℚ × ℚ → ℚ × ℚ
  active : Cone → Bool
  check : Cone → ℚ → ℚ → Bool

/-- Modelled from the spec: cone.hpp is not among the sources. Per spec 4.E,
update_position(x, y) sets origin = (x, y) and marks the cone alive. -/
def Cone.update_position (c : Cone) (x y : ℚ) : Cone :=
  { c with origin := (x, y), alive := true }

/-- Modelled from the spec: cone.hpp is not among the sources. Per spec 4.E,
update_direction(px, py) computes v = (px, py) − origin and, when v is
non-zero, blends v into the direction (the smoothing itself is abstract). -/
def Cone.update_direction (F : ConeFuns) (c : Cone) (px py : ℚ) : Cone :=
  let v : ℚ × ℚ := (px - c.origin.1, py - c.origin.2)
  if v = (0, 0) then c else { c with direction := F.blend c.direction v }

/-- A found contact (contacts/finder.hpp is not among the sources; the fields
used by application.hpp are mean and valid, the rest follow the spec's Contact
description). -/
structure Contact where
  mean : ℚ × ℚ
  index : Nat
  stable : Bool
  valid : Option Bool
deriving DecidableEq

/-- Legacy stylus data (ipts/data.hpp is not among the sources; fields follow
the spec's StylusData description). -/
structure StylusData where
  x : Nat
  y : Nat
  pressure : Nat
  tilt_x : Int
  tilt_y : Int
  button : Bool
  serial : Nat
deriving DecidableEq

/-- A raw heatmap frame as parsed from the wire (spec section 3: dimensions,
z_min/z_max, and a row-major byte buffer). -/
structure Heatmap where
  height : Nat
  width : Nat
  z_min : Nat
  z_max : Nat
  data : List Nat
deriving DecidableEq

/-- One cell of the normalization in Application::process_heatmap
(application.hpp lines 203-210): norm = (u - z_min) / (z_max - z_min), then
the heatmap is inverted as 1 - norm. -/
def normalizeCell (z_min z_max u : ℚ) : ℚ :=
  1 - (u - z_min) / (z_max - z_min)

/-- The normalization step of Application::process_heatmap applied to the whole
row-major buffer. -/
def normalizeHeatmap (h : Heatmap) : List ℚ :=
  h.data.map (fun u : ℕ => normalizeCell (h.z_min : ℚ) (h.z_max : ℚ) (u : ℚ))

/-- First loop of Application::update_touch_cone (application.hpp lines
273-282): every contact whose validity is known-false feeds its position,
scaled to physical coordinates, into cone.update_direction. -/
def updateConePass1 (F : ConeFuns) (cfg : Config) : Cone → List Contact → Cone
  | cone, [] => cone
  | cone, c :: rest =>
    if c.valid.getD true then
      updateConePass1 F cfg cone rest
    else
      updateConePass1 F cfg
        (Cone.update_direction F cone (c.mean.1 * cfg.width) (c.mean.2 * cfg.height)) rest

/-- Second loop of Application::update_touch_cone (application.hpp lines
284-294): every contact whose validity is not known-false gets its validity
set to the result of cone.check at its physical position. -/
def updateConePass2 (F : ConeFuns) (cfg : Config) (cone : Cone) : List Contact → List Contact
  | [] => []
  | c :: rest =>
    if !c.valid.getD true then
      c :: updateConePass2 F cfg cone rest
    else
      { c with valid := some (F.check cone (c.mean.1 * cfg.width) (c.mean.2 * cfg.height)) }
        :: updateConePass2 F cfg cone rest

/-- Application::update_touch_cone (application.hpp lines 261-295): early
return when the cone is not alive, not active, or touch_check_cone is
disabled; otherwise the two passes above. Returns the updated cone and the
updated contact list. -/
def update_touch_cone (F : ConeFuns) (cfg : Config) (cone : Cone) (cs : List Contact) :
    Cone × List Contact :=
  if !cone.alive then (cone, cs)
  else if !F.active cone then (cone, cs)
  else if !cfg.touch_check_cone then (cone, cs)
  else
    let cone2 := updateConePass1 F cfg cone cs
    (cone2, updateConePass2 F cfg cone2 cs)

/-- The DFT estimator operations (dft.hpp is not among the sources; kept
abstract over its state type δ and window type ω, per spec 4.D: input consumes
one window, get_stylus reads the current synthesized stylus sample). -/
structure DftOps (δ ω : Type) where
  input : δ → ω → δ
  get_stylus : δ → StylusData

/-- The contact finder operation (contacts/finder.hpp is not among the
sources; kept abstract over its tracking state φ: find consumes the
normalized heatmap and the reused contact buffer, returning the new state and
the found contacts). -/
structure FinderOps (φ : Type) where
  find : φ → List ℚ → List Contact → φ × List Contact

/-- The immutable pieces an Application holds: config plus the operations of
the components whose sources are not available. -/
structure AppEnv (δ ω φ : Type) where
  config : Config
  F : ConeFuns
  D : DftOps δ ω
  Fi : FinderOps φ

/-- The mutable state an Application holds: m_cone, m_dft, m_finder and the
reused m_contacts buffer. -/
structure AppState (δ φ : Type) where
  cone : Cone
  dft : δ
  finder : φ
  contacts : List Contact

/-- What the orchestrator hands to its overridable handlers: on_contacts and
on_stylus deliveries. -/
inductive Event
  | contacts (cs : List Contact)
  | stylus (d : StylusData)
deriving DecidableEq

/-- Application::process_stylus (application.hpp lines 229-240): scale the raw
coordinates to physical ones, update the cone position, then deliver the raw
data unmodified through on_stylus. -/
def process_stylus {δ ω φ : Type} (env : AppEnv δ ω φ) (st : AppState δ φ)
    (data : StylusData) : AppState δ φ × List Event :=
  let x := ((data.x : ℚ) / ((IPTS_MAX_X : Int) : ℚ)) * env.config.width
  let y := ((data.y : ℚ) / ((IPTS_MAX_Y : Int) : ℚ)) * env.config.height
  ({ st with cone := Cone.update_position st.cone x y }, [Event.stylus data])

/-- Application::process_heatmap (application.hpp lines 191-220): normalize
the raw buffer, run the finder, run the touch-rejection cone update, then
deliver the contacts through on_contacts. -/
def process_heatmap {δ ω φ : Type} (env : AppEnv δ ω φ) (st : AppState δ φ)
    (h : Heatmap) : AppState δ φ × List Event :=
  let img := normalizeHeatmap h
  let fr := env.Fi.find st.finder img st.contacts
  let cr := update_touch_cone env.F env.config st.cone fr.2
  ({ st with finder := fr.1, cone := cr.1, contacts := cr.2 }, [Event.contacts cr.2])

/-- Application::process_dft (application.hpp lines 250-254): feed the window
to the DFT estimator, then run the synthesized stylus sample through the same
path as a legacy stylus frame. -/
def process_dft {δ ω φ : Type} (env : AppEnv δ ω φ) (st : AppState δ φ)
    (w : ω) : AppState δ φ × List Event :=
  let dft2 := env.D.input st.dft w
  process_stylus env { st with dft := dft2 } (env.D.get_stylus dft2)

/-- A typed sub-frame as demultiplexed by the parser. Modelled from the spec:
ipts/parser.hpp is not among the sources; per spec 4.A the parser emits the
typed sub-frames of a buffer in source order, one callback per sub-frame, so a
parsed buffer is a list of frames. -/
inductive Frame (ω : Type)
  | heatmap (h : Heatmap)
  | stylus (d : StylusData)
  | dft (w : ω)

/-- Dispatch of one parsed sub-frame to the matching Application callback
(the callbacks registered in the constructor, application.hpp lines 135-137). -/
def processFrame {δ ω φ : Type} (env : AppEnv δ ω φ) (st : AppState δ φ) :
    Frame ω → AppState δ φ × List Event
  | Frame.heatmap h => process_heatmap env st h
  | Frame.stylus d => process_stylus env st d
  | Frame.dft w => process_dft env st w

/-- Application::process on a parsed buffer: handle the sub-frames in source
order (spec 4.A), threading the application state and concatenating the
deliveries. -/
def processFrames {δ ω φ : Type} (env : AppEnv δ ω φ) (st : AppState δ φ) :
    List (Frame ω) → AppState δ φ × List Event
  | [] => (st, [])
  | f :: rest =>
    let p := processFrame env st f
    let q := processFrames env p.1 rest
    (q.1, p.2 ++ q.2)

/-- True for the sub-frames that drive the stylus path (legacy stylus and DFT
windows), false for heatmaps. -/
def isStylusLike {ω : Type} : Frame ω → Bool
  | Frame.heatmap _ => false
  | _ => true

/-- The size check of the Application constructor (application.hpp lines
106-107): throw when the configured width or height is zero, otherwise the
construction succeeds; the initial cone has never seen a stylus position. -/
def applicationCtor (cfg : Config) : Except String Cone :=
  if cfg.width = 0 ∨ cfg.height = 0 then
    Except.error "Invalid config: The screen size is 0!"
  else
    Except.ok { origin := (0, 0), direction := (0, 0), alive := false }

/-! ## The daemon device manager (src/daemon/devices.cpp) -/

/-- The daemon configuration fields used by devices.cpp (IptsdConfig itself is
not among the sources; width and height are i32 there). -/
structure DConfig where
  width : Int
  height : Int
  vendor : Nat
  product : Nat
  version : Nat
  max_contacts : Int
deriving DecidableEq

/-- Rounding half away from zero, the behavior of std::round. -/
def crnd (q : ℚ) : Int :=
  if 0 ≤ q then ⌊q + 1 / 2⌋ else ⌈q - 1 / 2⌉

/-- res from devices.cpp lines 23-27: (f64)(virt * 10) / (f64)phys passed
through std::round and cast back to i32 (f64 modelled as exact rationals). -/
def res (virt phys : Int) : Int :=
  crnd (((virt * 10 : Int) : ℚ) / (phys : ℚ))

/-- The absolute axes devices.cpp reports through set_absinfo. -/
inductive Axis
  | ABS_X
  | ABS_Y
  | ABS_PRESSURE
  | ABS_TILT_X
  | ABS_TILT_Y
  | ABS_MISC
  | ABS_MT_SLOT
  | ABS_MT_TRACKING_ID
  | ABS_MT_POSITION_X
  | ABS_MT_POSITION_Y
  | ABS_MT_TOOL_TYPE
  | ABS_MT_TOOL_X
  | ABS_MT_ORIENTATION
  | ABS_MT_TOUCH_MAJOR
  | ABS_MT_TOUCH_MINOR
deriving DecidableEq

/-- One set_absinfo record: axis, minimum, maximum, resolution. -/
def AbsInfo : Type := Axis × Int × Int × Int

/-- Look up the first set_absinfo record for an axis. -/
def lookupAbs : List AbsInfo → Axis → Option (Int × Int × Int)
  | [], _ => none
  | (a, e) :: rest, ax => if a = ax then some e else lookupAbs rest ax

/-- The tilt resolution constant of devices.cpp lines 53-54: 18000 / M_PI in
f64, truncated by the i32 conversion to 5729. -/
def tilt_res : Int := 5729

/-- The set_absinfo calls of StylusDevice::StylusDevice (devices.cpp lines
47-55), in source order. -/
def stylusDeviceAbsInfo (conf : DConfig) : List AbsInfo :=
  [(Axis.ABS_X, 0, IPTS_MAX_X, res IPTS_MAX_X conf.width),
   (Axis.ABS_Y, 0, IPTS_MAX_Y, res IPTS_MAX_Y conf.height),
   (Axis.ABS_PRESSURE, 0, 4096, 0),
   (Axis.ABS_TILT_X, -9000, 9000, tilt_res),
   (Axis.ABS_TILT_Y, -9000, 9000, tilt_res),
   (Axis.ABS_MISC, 0, 65535, 0)]

/-- The set_absinfo calls of TouchDevice::TouchDevice (devices.cpp lines
73-89), in source order. The diagonal extent IPTS_DIAGONAL and the diagonal
resolution res(IPTS_DIAGONAL, sqrt(w² + h²)) involve a floating square root
and the protocol header, neither among the sources, so both are parameters. -/
def touchDeviceAbsInfo (conf : DConfig) (diag resD : Int) : List AbsInfo :=
  [(Axis.ABS_MT_SLOT, 0, conf.max_contacts, 0),
   (Axis.ABS_MT_TRACKING_ID, 0, conf.max_contacts, 0),
   (Axis.ABS_MT_POSITION_X, 0, IPTS_MAX_X, res IPTS_MAX_X conf.width),
   (Axis.ABS_MT_POSITION_Y, 0, IPTS_MAX_Y, res IPTS_MAX_Y conf.height),
   (Axis.ABS_MT_TOOL_TYPE, 0, 15, 0),
   (Axis.ABS_MT_TOOL_X, 0, IPTS_MAX_X, res IPTS_MAX_X conf.width),
   (Axis.ABS_MT_TOOL_X, 0, IPTS_MAX_X, res IPTS_MAX_X conf.width),
   (Axis.ABS_MT_ORIENTATION, 0, 180, 0),
   (Axis.ABS_MT_TOUCH_MAJOR, 0, diag, resD),
   (Axis.ABS_MT_TOUCH_MINOR, 0, diag, resD),
   (Axis.ABS_X, 0, IPTS_MAX_X, res IPTS_MAX_X conf.width),
   (Axis.ABS_Y, 0, IPTS_MAX_Y, res IPTS_MAX_Y conf.height)]

/-- A stylus device as held by the device manager: its per-stroke serial plus
an identity so that creating a new device is distinguishable from reassigning
an existing one. -/
structure Stylus where
  id : Nat
  serial : Nat
deriving DecidableEq

/-- The device manager state: the styli vector, the index of the active
stylus, and the next fresh device identity. -/
structure DMState where
  styli : List Stylus
  activeIdx : Nat
  nextId : Nat
deriving DecidableEq

/-- The search loop of DeviceManager::switch_stylus (devices.cpp lines
111-117): index of the first stylus whose serial matches. -/
def findStylus : List Stylus → Nat → Option Nat
  | [], _ => none
  | st :: rest, serial =>
    if st.serial = serial then some 0
    else (findStylus rest serial).map (· + 1)

/-- DeviceManager::switch_stylus (devices.cpp lines 109-132): make the stylus
with the given serial active; if none matches and the active stylus still has
serial 0, reassign it the new serial; otherwise create a new stylus device. -/
def switch_stylus (s : DMState) (serial : Nat) : DMState :=
  match findStylus s.styli serial with
  | some i => { s with activeIdx := i }
  | none =>
    match s.styli.get? s.activeIdx with
    | some ast =>
      if 0 < s.styli.length ∧ ast.serial = 0 then
        { s with styli := s.styli.set s.activeIdx { ast with serial := serial } }
      else
        { styli := s.styli ++ [{ id := s.nextId, serial := serial }],
          activeIdx := s.styli.length, nextId := s.nextId + 1 }
    | none =>
      { styli := s.styli ++ [{ id := s.nextId, serial := serial }],
        activeIdx := s.styli.length, nextId := s.nextId + 1 }

/-- DeviceManager::DeviceManager (devices.cpp lines 94-101): throw when the
configured width or height is zero, otherwise start with no styli and switch
to serial 0. -/
def deviceManagerCtor (conf : DConfig) : Except String DMState :=
  if conf.width = 0 ∨ conf.height = 0 then
    Except.error "Display size is 0"
  else
    Except.ok (switch_stylus { styli := [], activeIdx := 0, nextId := 0 } 0)

/-! ## The calibrate read loop (src/debug/calibrate.cpp lines 152-181) -/

/-- The observable outcome of one iteration of the calibrate read loop: the
device read or the parse threw (error); the read succeeded but the report
carried no touch data, so the iteration hit continue before the reset
(nontouch); or the iteration ran to the end of the loop body (touch). -/
inductive Outcome
  | error
  | nontouch
  | touch
deriving DecidableEq

/-- The effect of one loop iteration on the continuous-error counter
(calibrate.cpp lines 165-180): an exception increments it, a non-touch report
skips the reset via continue, a completed iteration resets it to 0. -/
def loopStep (e : Nat) : Outcome → Nat
  | Outcome.error => e + 1
  | Outcome.nontouch => e
  | Outcome.touch => 0

/-- The counter after a sequence of iterations. -/
def loopCnt : Nat → List Outcome → Nat
  | e, [] => e
  | e, o :: rest => loopCnt (loopStep e o) rest

/-- The calibrate read loop (calibrate.cpp lines 159-181) over a finite trace
of iteration outcomes: at the top of each iteration the counter is checked
against 50 and the loop aborts if reached; returns whether the loop aborted
due to errors (termination via the exit signal returns false). -/
def loopRun : Nat → List Outcome → Bool
  | e, [] => decide (50 ≤ e)
  | e, o :: rest => if 50 ≤ e then true else loopRun (loopStep e o) rest

/-- Number of error iterations in a trace. -/
def countErr : List Outcome → Nat
  | [] => 0
  | Outcome.error :: rest => countErr rest + 1
  | _ :: rest => countErr rest

/-- Length of the error run at the head of a trace. -/
def leadErrors : List Outcome → Nat
  | Outcome.error :: rest => leadErrors rest + 1
  | _ => 0

/-- Length of the longest run of consecutive error iterations in a trace. -/
def maxConsecErrors : List Outcome → Nat
  | [] => 0
  | o :: rest => max (leadErrors (o :: rest)) (maxConsecErrors rest)

/-! ## Concrete sample inputs -/

/-- A 1×1 heatmap whose raw value lies below z_min: a legal wire frame, since
the only documented invariant is z_max ≥ z_min. -/
def badHeatmap : Heatmap :=
  { height := 1, width := 1, z_min := 10, z_max := 20, data := [0] }

/-- A small well-behaved heatmap: all raw values inside [z_min, z_max]. -/
def sampleHeatmap : Heatmap :=
  { height := 2, width := 2, z_min := 0, z_max := 255, data := [255, 128, 0, 64] }

/-- A concrete instantiation of the abstract cone operations. -/
def sampleConeFuns : ConeFuns :=
  { blend := fun _ v => v, active := fun c => c.alive, check := fun _ x _ => decide (x < 10) }

/-- A concrete core configuration. -/
def sampleConfig : Config :=
  { width := 100, height := 200, touch_check_cone := true, cone_angle := 1, cone_distance := 50 }

/-- A concrete cone that has seen a stylus position. -/
def sampleCone : Cone := { origin := (5, 5), direction := (1, 0), alive := true }

/-- A concrete contact list with one known-palm, one unknown and one
known-finger contact. -/
def sampleContacts : List Contact :=
  [{ mean := (1/2, 1/2), index := 0, stable := true, valid := some false },
   { mean := (1/4, 3/4), index := 1, stable := false, valid := none },
   { mean := (1/8, 1/8), index := 2, stable := true, valid := some true }]

/-- A concrete orchestrator environment over Nat-valued component states. -/
def sampleEnv : AppEnv Nat Nat Nat :=
  { config := sampleConfig,
    F := sampleConeFuns,
    D := { input := fun d _ => d + 1,
           get_stylus := fun d =>
             { x := d, y := d, pressure := 0, tilt_x := 0, tilt_y := 0,
               button := false, serial := 0 } },
    Fi := { find := fun f img old =>
              (f + 1,
               old ++ [{ mean := (img.headD 0, 0), index := old.length,
                         stable := false, valid := none }]) } }

/-- A concrete orchestrator state whose cone has never seen a stylus. -/
def sampleStateDead : AppState Nat Nat :=
  { cone := { origin := (0, 0), direction := (0, 0), alive := false },
    dft := 0, finder := 0, contacts := [] }

/-- A concrete daemon configuration. -/
def sampleDConfig : DConfig :=
  { width := 2000, height := 1500, vendor := 1, product := 2, version := 3, max_contacts := 10 }

/-- A concrete device manager state: one named stylus and an active stylus
that still carries serial 0. -/
def sampleDMState : DMState :=
  { styli := [{ id := 0, serial := 7 }, { id := 1, serial := 0 }], activeIdx := 1, nextId := 2 }

/-- A trace with 49 straight errors, a non-touch report, one more error and a
clean iteration: no 50 consecutive error iterations anywhere. -/
def badTrace : List Outcome :=
  List.replicate 49 Outcome.error ++ [Outcome.nontouch, Outcome.error, Outcome.touch]

/-! ## Theorems -/

/-- C1 (counterexample): the normalization of Application::process_heatmap
does not clamp: for the heatmap with z_min = 10, z_max = 20 and a raw cell 0,
the normalized cell is 2, outside [0, 1], so the claim as stated is false. -/
theorem normalize_clamp_counterexample :
    normalizeHeatmap badHeatmap = [2]
      ∧ ¬ ∀ q ∈ normalizeHeatmap badHeatmap, 0 ≤ q ∧ q ≤ 1 := by
  have h2 : normalizeHeatmap badHeatmap = [2] := by
    simp only [normalizeHeatmap, badHeatmap, normalizeCell, List.map]
    norm_num
  refine ⟨h2, fun hall => ?_⟩
  have hmem : (2 : ℚ) ∈ normalizeHeatmap badHeatmap := by
    rw [h2]; exact List.mem_singleton.mpr rfl
  have := (hall 2 hmem).2
  norm_num at this

/-- C1 (amended): when z_min < z_max, every normalized cell equals
1 − (u − z_min)/(z_max − z_min) exactly, with no clamping; the cells all lie
in [0, 1] when additionally every raw value lies in [z_min, z_max]. (The
z_max = z_min case divides by zero in the code instead of emitting zeros.) -/
theorem normalize_formula_amended (h : Heatmap) (hz : (h.z_min : ℚ) < (h.z_max : ℚ)) :
    normalizeHeatmap h
        = h.data.map (fun u : ℕ => 1 - ((u : ℚ) - (h.z_min : ℚ)) / ((h.z_max : ℚ) - (h.z_min : ℚ)))
      ∧ ((∀ u ∈ h.data, h.z_min ≤ u ∧ u ≤ h.z_max) →
          ∀ q ∈ normalizeHeatmap h, 0 ≤ q ∧ q ≤ 1) := by
  constructor
  · rfl
  · intro hb q hq
    unfold normalizeHeatmap at hq
    obtain ⟨u, hu, rfl⟩ := List.mem_map.mp hq
    obtain ⟨h1, h2⟩ := hb u hu
    have hd : (0 : ℚ) < (h.z_max : ℚ) - (h.z_min : ℚ) := by linarith
    have hu1 : ((h.z_min : ℚ)) ≤ (u : ℚ) := by exact_mod_cast h1
    have hu2 : ((u : ℚ)) ≤ (h.z_max : ℚ) := by exact_mod_cast h2
    unfold normalizeCell
    constructor
    · have hle : ((u : ℚ) - (h.z_min : ℚ)) / ((h.z_max : ℚ) - (h.z_min : ℚ)) ≤ 1 := by
        rw [div_le_one hd]; linarith
      linarith
    · have hge : 0 ≤ ((u : ℚ) - (h.z_min : ℚ)) / ((h.z_max : ℚ) - (h.z_min : ℚ)) :=
        div_nonneg (by linarith) (le_of_lt hd)
      linarith

/-- C1 (witness): the amended statement evaluated on a concrete heatmap. -/
theorem normalize_formula_amended_witness :
    ((sampleHeatmap.z_min : ℚ) < (sampleHeatmap.z_max : ℚ))
      ∧ (normalizeHeatmap sampleHeatmap
            = sampleHeatmap.data.map (fun u : ℕ =>
                1 - ((u : ℚ) - (sampleHeatmap.z_min : ℚ))
                      / ((sampleHeatmap.z_max : ℚ) - (sampleHeatmap.z_min : ℚ)))
          ∧ ((∀ u ∈ sampleHeatmap.data, sampleHeatmap.z_min ≤ u ∧ u ≤ sampleHeatmap.z_max) →
              ∀ q ∈ normalizeHeatmap sampleHeatmap, 0 ≤ q ∧ q ≤ 1)) :=
  ⟨by norm_num [sampleHeatmap], normalize_formula_amended sampleHeatmap (by norm_num [sampleHeatmap])⟩

/-- C2: the Application constructor and the DeviceManager constructor throw
exactly when the configured width or height is zero. -/
theorem ctor_throws_iff_zero_size (cfg : Config) (conf : DConfig) :
    ((∃ e, applicationCtor cfg = Except.error e) ↔ cfg.width = 0 ∨ cfg.height = 0)
      ∧ ((∃ e, deviceManagerCtor conf = Except.error e) ↔ conf.width = 0 ∨ conf.height = 0) := by
  constructor
  · unfold applicationCtor
    by_cases h : cfg.width = 0 ∨ cfg.height = 0 <;> simp [h]
  · unfold deviceManagerCtor
    by_cases h : conf.width = 0 ∨ conf.height = 0 <;> simp [h]

/-- Helper: update_touch_cone returns the cone and the contacts unchanged when
the cone is not alive, not active, or the palm gate is disabled
(application.hpp lines 263-271). -/
theorem update_touch_cone_noop (F : ConeFuns) (cfg : Config) (cone : Cone) (cs : List Contact)
    (hdis : cone.alive = false ∨ F.active cone = false ∨ cfg.touch_check_cone = false) :
    update_touch_cone F cfg cone cs = (cone, cs) := by
  unfold update_touch_cone
  rcases hdis with h | h | h <;> simp [h]

/-- C3: when the cone is not alive, not active, or touch_check_cone is
disabled, process_heatmap delivers to on_contacts exactly the contacts the
finder returned: the palm-rejection pass changes nothing. -/
theorem palm_pass_noop {δ ω φ : Type} (env : AppEnv δ ω φ) (st : AppState δ φ) (h : Heatmap)
    (hdis : st.cone.alive = false ∨ env.F.active st.cone = false
              ∨ env.config.touch_check_cone = false) :
    (process_heatmap env st h).2
      = [Event.contacts (env.Fi.find st.finder (normalizeHeatmap h) st.contacts).2] := by
  simp only [process_heatmap]
  rw [update_touch_cone_noop _ _ _ _ hdis]

/-- C3 (witness): the statement evaluated at a concrete environment whose
cone has never seen a stylus position. -/
theorem palm_pass_noop_witness :
    (sampleStateDead.cone.alive = false ∨ sampleEnv.F.active sampleStateDead.cone = false
        ∨ sampleEnv.config.touch_check_cone = false)
      ∧ (process_heatmap sampleEnv sampleStateDead sampleHeatmap).2
          = [Event.contacts (sampleEnv.Fi.find sampleStateDead.finder
                (normalizeHeatmap sampleHeatmap) sampleStateDead.contacts).2] :=
  ⟨Or.inl rfl, palm_pass_noop sampleEnv sampleStateDead sampleHeatmap (Or.inl rfl)⟩

/-- Helper: the first pass of update_touch_cone equals a fold of
cone.update_direction over exactly the known-false contacts, in list order,
at their physical positions. -/
theorem updateConePass1_eq_foldl (F : ConeFuns) (cfg : Config) (cone : Cone) (cs : List Contact) :
    updateConePass1 F cfg cone cs
      = (cs.filter (fun c => !c.valid.getD true)).foldl
          (fun s c => Cone.update_direction F s (c.mean.1 * cfg.width) (c.mean.2 * cfg.height))
          cone := by
  induction cs generalizing cone with
  | nil => rfl
  | cons c rest ih =>
    by_cases hv : c.valid.getD true = true <;>
      simp [updateConePass1, hv, List.filter_cons, ih]

/-- Helper: the second pass of update_touch_cone keeps known-false contacts
unchanged and sets every other contact's validity to cone.check at its
physical position. -/
theorem updateConePass2_eq_map (F : ConeFuns) (cfg : Config) (cone : Cone) (cs : List Contact) :
    updateConePass2 F cfg cone cs
      = cs.map (fun c =>
          if !c.valid.getD true then c
          else { c with
                 valid := some (F.check cone (c.mean.1 * cfg.width) (c.mean.2 * cfg.height)) }) := by
  induction cs with
  | nil => rfl
  | cons c rest ih =>
    by_cases hv : c.valid.getD true = true <;> simp [updateConePass2, hv, ih]

/-- C4: when the palm-rejection pass runs (cone alive and active,
touch_check_cone enabled), the resulting cone is the fold of
cone.update_direction over exactly the known-false contacts at their physical
positions, and the resulting contact list keeps known-false validities and
sets every other validity to cone.check at the contact's physical position,
evaluated on the cone produced by the first pass. -/
theorem palm_pass_two_passes (F : ConeFuns) (cfg : Config) (cone : Cone) (cs : List Contact)
    (ha : cone.alive = true) (hb : F.active cone = true) (hc : cfg.touch_check_cone = true) :
    (update_touch_cone F cfg cone cs).1
        = (cs.filter (fun c => !c.valid.getD true)).foldl
            (fun s c => Cone.update_direction F s (c.mean.1 * cfg.width) (c.mean.2 * cfg.height))
            cone
      ∧ (update_touch_cone F cfg cone cs).2
          = cs.map (fun c =>
              if !c.valid.getD true then c
              else { c with
                     valid := some (F.check ((update_touch_cone F cfg cone cs).1)
                                (c.mean.1 * cfg.width) (c.mean.2 * cfg.height)) }) := by
  have hrun : update_touch_cone F cfg cone cs
      = (updateConePass1 F cfg cone cs,
         updateConePass2 F cfg (updateConePass1 F cfg cone cs) cs) := by
    unfold update_touch_cone
    simp [ha, hb, hc]
  constructor
  · rw [hrun]
    exact updateConePass1_eq_foldl F cfg cone cs
  · conv => lhs; rw [hrun]
    rw [hrun, updateConePass2_eq_map]

/-- C4 (witness): the statement evaluated at a concrete cone, configuration
and contact list. -/
theorem palm_pass_two_passes_witness :
    (sampleCone.alive = true ∧ sampleConeFuns.active sampleCone = true
        ∧ sampleConfig.touch_check_cone = true)
      ∧ ((update_touch_cone sampleConeFuns sampleConfig sampleCone sampleContacts).1
            = (sampleContacts.filter (fun c => !c.valid.getD true)).foldl
                (fun s c => Cone.update_direction sampleConeFuns s
                    (c.mean.1 * sampleConfig.width) (c.mean.2 * sampleConfig.height))
                sampleCone
          ∧ (update_touch_cone sampleConeFuns sampleConfig sampleCone sampleContacts).2
              = sampleContacts.map (fun c =>
                  if !c.valid.getD true then c
                  else { c with
                         valid := some (sampleConeFuns.check
                             ((update_touch_cone sampleConeFuns sampleConfig sampleCone
                                 sampleContacts).1)
                             (c.mean.1 * sampleConfig.width)
                             (c.mean.2 * sampleConfig.height)) })) :=
  ⟨⟨rfl, rfl, rfl⟩,
   palm_pass_two_passes sampleConeFuns sampleConfig sampleCone sampleContacts rfl rfl rfl⟩

/-- C5: process_stylus scales the raw coordinates exactly as
(x / IPTS_MAX_X · width, y / IPTS_MAX_Y · height), updates the cone position
with that physical point, and delivers the unmodified raw stylus data to the
on_stylus handler; nothing else in the application state changes. -/
theorem process_stylus_spec {δ ω φ : Type} (env : AppEnv δ ω φ) (st : AppState δ φ)
    (d : StylusData) :
    (process_stylus env st d).1.cone
        = Cone.update_position st.cone
            (((d.x : ℚ) / ((IPTS_MAX_X : Int) : ℚ)) * env.config.width)
            (((d.y : ℚ) / ((IPTS_MAX_Y : Int) : ℚ)) * env.config.height)
      ∧ (process_stylus env st d).2 = [Event.stylus d]
      ∧ (process_stylus env st d).1.dft = st.dft
      ∧ (process_stylus env st d).1.finder = st.finder
      ∧ (process_stylus env st d).1.contacts = st.contacts :=
  ⟨rfl, rfl, rfl, rfl, rfl⟩

/-- C6: process_dft first feeds the window to the DFT estimator, then runs
dft.get_stylus() of the updated estimator through exactly the stylus path: the
delivery is the synthesized sample and the cone position update happens at its
scaled coordinates. -/
theorem process_dft_spec {δ ω φ : Type} (env : AppEnv δ ω φ) (st : AppState δ φ) (w : ω) :
    process_dft env st w
        = process_stylus env { st with dft := env.D.input st.dft w }
            (env.D.get_stylus (env.D.input st.dft w))
      ∧ (process_dft env st w).2
          = [Event.stylus (env.D.get_stylus (env.D.input st.dft w))]
      ∧ (process_dft env st w).1.cone
          = Cone.update_position st.cone
              ((((env.D.get_stylus (env.D.input st.dft w)).x : ℚ)
                  / ((IPTS_MAX_X : Int) : ℚ)) * env.config.width)
              ((((env.D.get_stylus (env.D.input st.dft w)).y : ℚ)
                  / ((IPTS_MAX_Y : Int) : ℚ)) * env.config.height) :=
  ⟨rfl, rfl, rfl⟩

/-- Helper: Cone.update_direction never changes the origin or the alive
flag. -/
theorem update_direction_preserves (F : ConeFuns) (c : Cone) (px py : ℚ) :
    (Cone.update_direction F c px py).origin = c.origin
      ∧ (Cone.update_direction F c px py).alive = c.alive := by
  simp only [Cone.update_direction]
  by_cases hv : ((px - c.origin.1, py - c.origin.2) : ℚ × ℚ) = (0, 0)
  · rw [if_pos hv]; exact ⟨rfl, rfl⟩
  · rw [if_neg hv]; exact ⟨rfl, rfl⟩

/-- Helper: the first palm pass never changes the cone origin or the alive
flag. -/
theorem updateConePass1_preserves (F : ConeFuns) (cfg : Config) (cone : Cone)
    (cs : List Contact) :
    (updateConePass1 F cfg cone cs).origin = cone.origin
      ∧ (updateConePass1 F cfg cone cs).alive = cone.alive := by
  induction cs generalizing cone with
  | nil => exact ⟨rfl, rfl⟩
  | cons c rest ih =>
    by_cases hv : c.valid.getD true = true
    · simpa [updateConePass1, hv] using ih cone
    · have hp := update_direction_preserves F cone (c.mean.1 * cfg.width) (c.mean.2 * cfg.height)
      have hr := ih (Cone.update_direction F cone (c.mean.1 * cfg.width) (c.mean.2 * cfg.height))
      simp only [updateConePass1, hv]
      simp only [Bool.false_eq_true, if_false]
      exact ⟨hr.1.trans hp.1, hr.2.trans hp.2⟩

/-- Helper: update_touch_cone never changes the cone origin or the alive
flag (it only rotates the direction). -/
theorem update_touch_cone_preserves (F : ConeFuns) (cfg : Config) (cone : Cone)
    (cs : List Contact) :
    (update_touch_cone F cfg cone cs).1.origin = cone.origin
      ∧ (update_touch_cone F cfg cone cs).1.alive = cone.alive := by
  unfold update_touch_cone
  by_cases h1 : cone.alive
  · by_cases h2 : F.active cone
    · by_cases h3 : cfg.touch_check_cone
      · simpa [h1, h2, h3] using updateConePass1_preserves F cfg cone cs
      · simp [h1, h2, h3]
    · simp [h1, h2]
  · simp [h1]

/-- Helper: processing a buffer is the sequential composition of processing
its two halves, with the deliveries concatenated in order. -/
theorem processFrames_append {δ ω φ : Type} (env : AppEnv δ ω φ) (st : AppState δ φ)
    (a b : List (Frame ω)) :
    processFrames env st (a ++ b)
      = ((processFrames env (processFrames env st a).1 b).1,
         (processFrames env st a).2 ++ (processFrames env (processFrames env st a).1 b).2) := by
  induction a generalizing st with
  | nil => simp [processFrames]
  | cons f rest ih => simp [processFrames, ih, List.append_assoc]

/-- Helper: the cone origin, the cone alive flag and the DFT state evolve only
through stylus-like frames: dropping the heatmap frames of a buffer does not
change them (two runs agreeing on these components keep agreeing). -/
theorem processFrames_stylus_projection {δ ω φ : Type} (env : AppEnv δ ω φ)
    (l : List (Frame ω)) (st1 st2 : AppState δ φ)
    (ho : st1.cone.origin = st2.cone.origin) (hal : st1.cone.alive = st2.cone.alive)
    (hd : st1.dft = st2.dft) :
    (processFrames env st1 l).1.cone.origin
        = (processFrames env st2 (l.filter isStylusLike)).1.cone.origin
      ∧ (processFrames env st1 l).1.cone.alive
          = (processFrames env st2 (l.filter isStylusLike)).1.cone.alive
      ∧ (processFrames env st1 l).1.dft
          = (processFrames env st2 (l.filter isStylusLike)).1.dft := by
  induction l generalizing st1 st2 with
  | nil => exact ⟨ho, hal, hd⟩
  | cons f rest ih =>
    cases f with
    | heatmap h =>
      have hp := update_touch_cone_preserves env.F env.config st1.cone
        (env.Fi.find st1.finder (normalizeHeatmap h) st1.contacts).2
      have h1 : (process_heatmap env st1 h).1.cone.origin = st2.cone.origin :=
        hp.1.trans ho
      have h2 : (process_heatmap env st1 h).1.cone.alive = st2.cone.alive :=
        hp.2.trans hal
      have h3 : (process_heatmap env st1 h).1.dft = st2.dft := hd
      simpa [processFrames, processFrame, isStylusLike, List.filter_cons] using
        ih (process_heatmap env st1 h).1 st2 h1 h2 h3
    | stylus d =>
      have h1 : (process_stylus env st1 d).1.cone.origin
          = (process_stylus env st2 d).1.cone.origin := rfl
      have h2 : (process_stylus env st1 d).1.cone.alive
          = (process_stylus env st2 d).1.cone.alive := rfl
      have h3 : (process_stylus env st1 d).1.dft = (process_stylus env st2 d).1.dft := hd
      simpa [processFrames, processFrame, isStylusLike, List.filter_cons] using
        ih (process_stylus env st1 d).1 (process_stylus env st2 d).1 h1 h2 h3
    | dft w =>
      have hin : env.D.input st1.dft w = env.D.input st2.dft w := by rw [hd]
      have h1 : (process_dft env st1 w).1.cone.origin
          = (process_dft env st2 w).1.cone.origin := by
        simp [process_dft, process_stylus, Cone.update_position, hin]
      have h2 : (process_dft env st1 w).1.cone.alive
          = (process_dft env st2 w).1.cone.alive := rfl
      have h3 : (process_dft env st1 w).1.dft = (process_dft env st2 w).1.dft := by
        simp [process_dft, process_stylus, hin]
      simpa [processFrames, processFrame, isStylusLike, List.filter_cons] using
        ih (process_dft env st1 w).1 (process_dft env st2 w).1 h1 h2 h3

/-- C7: within one process() call the sub-frames are handled in buffer order
(processing pre ++ heatmap :: post is the sequential composition, with the
deliveries concatenated in that order, and the heatmap's palm pass reads the
state produced by exactly the frames before it), and the cone state the
heatmap observes is as of the last preceding stylus frame: its origin and
alive flag equal those after processing only the stylus-like frames of the
prefix. -/
theorem process_frames_ordering {δ ω φ : Type} (env : AppEnv δ ω φ) (st : AppState δ φ)
    (pre post : List (Frame ω)) (h : Heatmap) :
    (processFrames env st (pre ++ Frame.heatmap h :: post)
        = ((processFrames env (process_heatmap env (processFrames env st pre).1 h).1 post).1,
           (processFrames env st pre).2
             ++ ((process_heatmap env (processFrames env st pre).1 h).2
                  ++ (processFrames env
                        (process_heatmap env (processFrames env st pre).1 h).1 post).2)))
      ∧ (processFrames env st pre).1.cone.origin
          = (processFrames env st (pre.filter isStylusLike)).1.cone.origin
      ∧ (processFrames env st pre).1.cone.alive
          = (processFrames env st (pre.filter isStylusLike)).1.cone.alive := by
  refine ⟨?_, ?_, ?_⟩
  · rw [processFrames_append]
    simp [processFrames, processFrame]
  · exact (processFrames_stylus_projection env pre st st rfl rfl rfl).1
  · exact (processFrames_stylus_projection env pre st st rfl rfl rfl).2.1

/-- C8: for a non-zero physical extent, res computes round((virt · 10) / phys)
with rounding half away from zero (std::round), and both the stylus device and
the touch device advertise res(IPTS_MAX_X, width) and res(IPTS_MAX_Y, height)
as the resolutions of their X and Y axes. -/
theorem res_advertised (conf : DConfig) (diag resD virt phys : Int)
    (hw : conf.width ≠ 0) (hh : conf.height ≠ 0) (hp : phys ≠ 0) :
    res virt phys = crnd (((virt * 10 : Int) : ℚ) / ((phys : Int) : ℚ))
      ∧ lookupAbs (stylusDeviceAbsInfo conf) Axis.ABS_X
          = some (0, IPTS_MAX_X, res IPTS_MAX_X conf.width)
      ∧ lookupAbs (stylusDeviceAbsInfo conf) Axis.ABS_Y
          = some (0, IPTS_MAX_Y, res IPTS_MAX_Y conf.height)
      ∧ lookupAbs (touchDeviceAbsInfo conf diag resD) Axis.ABS_MT_POSITION_X
          = some (0, IPTS_MAX_X, res IPTS_MAX_X conf.width)
      ∧ lookupAbs (touchDeviceAbsInfo conf diag resD) Axis.ABS_MT_POSITION_Y
          = some (0, IPTS_MAX_Y, res IPTS_MAX_Y conf.height)
      ∧ lookupAbs (touchDeviceAbsInfo conf diag resD) Axis.ABS_X
          = some (0, IPTS_MAX_X, res IPTS_MAX_X conf.width)
      ∧ lookupAbs (touchDeviceAbsInfo conf diag resD) Axis.ABS_Y
          = some (0, IPTS_MAX_Y, res IPTS_MAX_Y conf.height) :=
  ⟨rfl, rfl, rfl, rfl, rfl, rfl, rfl⟩

/-- C8 (witness): the statement evaluated at a concrete configuration. -/
theorem res_advertised_witness :
    (sampleDConfig.width ≠ 0 ∧ sampleDConfig.height ≠ 0 ∧ (100 : Int) ≠ 0)
      ∧ (res 9600 100 = crnd (((9600 * 10 : Int) : ℚ) / (((100 : Int) : Int) : ℚ))
          ∧ lookupAbs (stylusDeviceAbsInfo sampleDConfig) Axis.ABS_X
              = some (0, IPTS_MAX_X, res IPTS_MAX_X sampleDConfig.width)
          ∧ lookupAbs (stylusDeviceAbsInfo sampleDConfig) Axis.ABS_Y
              = some (0, IPTS_MAX_Y, res IPTS_MAX_Y sampleDConfig.height)
          ∧ lookupAbs (touchDeviceAbsInfo sampleDConfig 12000 34) Axis.ABS_MT_POSITION_X
              = some (0, IPTS_MAX_X, res IPTS_MAX_X sampleDConfig.width)
          ∧ lookupAbs (touchDeviceAbsInfo sampleDConfig 12000 34) Axis.ABS_MT_POSITION_Y
              = some (0, IPTS_MAX_Y, res IPTS_MAX_Y sampleDConfig.height)
          ∧ lookupAbs (touchDeviceAbsInfo sampleDConfig 12000 34) Axis.ABS_X
              = some (0, IPTS_MAX_X, res IPTS_MAX_X sampleDConfig.width)
          ∧ lookupAbs (touchDeviceAbsInfo sampleDConfig 12000 34) Axis.ABS_Y
              = some (0, IPTS_MAX_Y, res IPTS_MAX_Y sampleDConfig.height)) :=
  ⟨⟨by decide, by decide, by decide⟩,
   res_advertised sampleDConfig 12000 34 9600 100 (by decide) (by decide) (by decide)⟩

set_option maxRecDepth 4000 in
/-- C9 (counterexample): the calibrate loop aborts on a trace whose longest
run of consecutive error iterations is 49: after 49 errors, a read that
carries no touch data hits continue before the reset, so one further error
drives the counter to 50. Fewer than 50 consecutive errors can terminate the
loop, refuting the claim. -/
theorem error_loop_counterexample :
    loopRun 0 badTrace = true ∧ maxConsecErrors badTrace = 49 := by
  constructor
  · decide
  · decide

/-- Helper: the error counter over a concatenation is the counter of the
second half started from the counter of the first. -/
theorem loopCnt_append (e : Nat) (a b : List Outcome) :
    loopCnt e (a ++ b) = loopCnt (loopCnt e a) b := by
  induction a generalizing e with
  | nil => rfl
  | cons o rest ih => simp [loopCnt, ih]

/-- Helper: over a trace with no completed touch iteration, the counter grows
by exactly the number of error iterations. -/
theorem loopCnt_no_touch (e : Nat) (b : List Outcome) (hb : Outcome.touch ∉ b) :
    loopCnt e b = e + countErr b := by
  induction b generalizing e with
  | nil => simp [loopCnt, countErr]
  | cons o rest ih =>
    have hrest : Outcome.touch ∉ rest := fun hm => hb (List.mem_cons_of_mem o hm)
    cases o with
    | error => simp [loopCnt, loopStep, countErr, ih _ hrest]; omega
    | nontouch => simp [loopCnt, loopStep, countErr, ih _ hrest]
    | touch => exact absurd (List.mem_cons_self _ _) hb

/-- Helper: the number of error iterations over a concatenation. -/
theorem countErr_append (a b : List Outcome) :
    countErr (a ++ b) = countErr a + countErr b := by
  induction a with
  | nil => simp [countErr]
  | cons o rest ih => cases o <;> simp [countErr, ih] <;> omega

/-- Helper: every trace splits at its last completed touch iteration: the
counter equals the number of errors in the touch-free tail. -/
theorem loopCnt_last_reset (p : List Outcome) :
    ∃ a b, p = a ++ b ∧ Outcome.touch ∉ b ∧ loopCnt 0 p = countErr b := by
  induction p using List.reverseRecOn with
  | nil => exact ⟨[], [], rfl, by simp, rfl⟩
  | append_singleton p o ih =>
    obtain ⟨a, b, rfl, hb, hc⟩ := ih
    cases o with
    | touch =>
      refine ⟨(a ++ b) ++ [Outcome.touch], [], by simp, by simp, ?_⟩
      rw [loopCnt_append]
      rfl
    | error =>
      refine ⟨a, b ++ [Outcome.error], by simp, ?_, ?_⟩
      · intro hm
        rcases List.mem_append.mp hm with hm | hm
        · exact hb hm
        · simp at hm
      · rw [loopCnt_append, countErr_append, hc]
        simp [loopCnt, loopStep, countErr]
    | nontouch =>
      refine ⟨a, b ++ [Outcome.nontouch], by simp, ?_, ?_⟩
      · intro hm
        rcases List.mem_append.mp hm with hm | hm
        · exact hb hm
        · simp at hm
      · rw [loopCnt_append, countErr_append, hc]
        simp [loopCnt, loopStep, countErr]

/-- Helper: the loop aborts exactly when the counter reaches 50 at the top of
some iteration, i.e. after some prefix of the trace. -/
theorem loopRun_true_iff (l : List Outcome) (e : Nat) :
    loopRun e l = true ↔ ∃ p r, l = p ++ r ∧ 50 ≤ loopCnt e p := by
  induction l generalizing e with
  | nil =>
    simp only [loopRun, decide_eq_true_eq]
    constructor
    · intro h; exact ⟨[], [], rfl, h⟩
    · rintro ⟨p, r, hpr, hc⟩
      obtain ⟨rfl, rfl⟩ := List.append_eq_nil.mp hpr.symm
      exact hc
  | cons o rest ih =>
    by_cases he : 50 ≤ e
    · simp only [loopRun, if_pos he]
      constructor
      · intro _
        exact ⟨[], o :: rest, rfl, he⟩
      · intro _
        trivial
    · rw [loopRun, if_neg he, ih]
      constructor
      · rintro ⟨p, r, rfl, hc⟩
        exact ⟨o :: p, r, rfl, hc⟩
      · rintro ⟨p, r, hpr, hc⟩
        cases p with
        | nil => exact absurd hc (by simpa [loopCnt] using he)
        | cons p0 p1 =>
          obtain ⟨rfl, hrest⟩ : p0 = o ∧ rest = p1 ++ r := by
            have := hpr
            simp only [List.cons_append, List.cons.injEq] at this
            exact ⟨this.1.symm, this.2⟩
          exact ⟨p1, r, hrest, hc⟩

/-- C9 (amended): the counter resets to 0 only after an exception-free
iteration whose report carries touch data; an exception-free iteration that
reads a non-touch report leaves the counter unchanged (continue skips the
reset); and the loop aborts exactly when at least 50 error iterations
accumulate with no completed touch-data iteration between them. -/
theorem error_loop_aborts_iff (l : List Outcome) :
    (loopRun 0 l = true
        ↔ ∃ a b c, l = a ++ b ++ c ∧ Outcome.touch ∉ b ∧ 50 ≤ countErr b)
      ∧ (∀ e, loopStep e Outcome.touch = 0 ∧ loopStep e Outcome.nontouch = e
            ∧ loopStep e Outcome.error = e + 1) := by
  refine ⟨?_, fun e => ⟨rfl, rfl, rfl⟩⟩
  rw [loopRun_true_iff]
  constructor
  · rintro ⟨p, r, rfl, hc⟩
    obtain ⟨a, b, rfl, hb, hcb⟩ := loopCnt_last_reset p
    exact ⟨a, b, r, by simp, hb, by omega⟩
  · rintro ⟨a, b, c, rfl, hb, hcb⟩
    refine ⟨a ++ b, c, by simp, ?_⟩
    rw [loopCnt_append, loopCnt_no_touch _ _ hb]
    omega

/-- Helper: a successful stylus search returns the index of a stylus carrying
the searched serial. -/
theorem findStylus_some (l : List Stylus) (serial i : Nat)
    (h : findStylus l serial = some i) :
    ∃ ast, l.get? i = some ast ∧ ast.serial = serial := by
  induction l generalizing i with
  | nil => simp [findStylus] at h
  | cons st rest ih =>
    unfold findStylus at h
    by_cases hs : st.serial = serial
    · rw [if_pos hs] at h
      obtain rfl : (0 : Nat) = i := Option.some.inj h
      exact ⟨st, rfl, hs⟩
    · rw [if_neg hs] at h
      obtain ⟨j, hj, rfl⟩ := Option.map_eq_some'.mp h
      obtain ⟨ast, hget, hser⟩ := ih j hj
      exact ⟨ast, hget, hser⟩

/-- Helper: a failed stylus search means no stylus carries the serial. -/
theorem findStylus_none (l : List Stylus) (serial : Nat)
    (h : findStylus l serial = none) :
    ∀ st ∈ l, st.serial ≠ serial := by
  induction l with
  | nil => intro st hm; simp at hm
  | cons s0 rest ih =>
    unfold findStylus at h
    by_cases hs : s0.serial = serial
    · rw [if_pos hs] at h; exact absurd h (by simp)
    · rw [if_neg hs] at h
      intro st hm
      rcases List.mem_cons.mp hm with rfl | hm
      · exact hs
      · exact ih (Option.map_eq_none'.mp h) st hm

/-- Helper: reading back the element just written by List.set. -/
theorem get?_set_self (l : List Stylus) (i : Nat) (a : Stylus) (h : i < l.length) :
    (l.set i a).get? i = some a := by
  induction l generalizing i with
  | nil => simp at h
  | cons x rest ih =>
    cases i with
    | zero => rfl
    | succ j => exact ih j (by simpa using h)

/-- Helper: reading the element appended at the end of a list. -/
theorem get?_append_len (l : List Stylus) (a : Stylus) :
    (l ++ [a]).get? l.length = some a := by
  induction l with
  | nil => rfl
  | cons x rest ih => exact ih

/-- C10: after switch_stylus(serial) on a state whose active index is valid,
the active stylus exists and carries the requested serial; when a stylus with
that serial already exists the styli list is unchanged (no new device); and
when no stylus matches but the active stylus still has serial 0, that stylus
is reassigned the new serial in place and stays active, again creating no new
device. -/
theorem switch_stylus_spec (s : DMState) (serial : Nat)
    (hinv : s.styli = [] ∨ s.activeIdx < s.styli.length) :
    (∃ ast, (switch_stylus s serial).styli.get? (switch_stylus s serial).activeIdx = some ast
        ∧ ast.serial = serial)
      ∧ ((∃ st ∈ s.styli, st.serial = serial) → (switch_stylus s serial).styli = s.styli)
      ∧ (∀ ast, s.styli.get? s.activeIdx = some ast → ast.serial = 0 →
            (¬ ∃ st ∈ s.styli, st.serial = serial) →
            (switch_stylus s serial).styli
                = s.styli.set s.activeIdx { ast with serial := serial }
              ∧ (switch_stylus s serial).activeIdx = s.activeIdx) := by
  cases hf : findStylus s.styli serial with
  | some i =>
    have heq : switch_stylus s serial = { s with activeIdx := i } := by
      simp [switch_stylus, hf]
    rw [heq]
    refine ⟨?_, fun _ => rfl, ?_⟩
    · obtain ⟨ast, hget, hser⟩ := findStylus_some s.styli serial i hf
      exact ⟨ast, hget, hser⟩
    · intro ast _ _ hno
      obtain ⟨a2, hget, hser⟩ := findStylus_some s.styli serial i hf
      exact absurd ⟨a2, List.get?_mem hget, hser⟩ hno
  | none =>
    have hnone := findStylus_none s.styli serial hf
    cases hg : s.styli.get? s.activeIdx with
    | some ast =>
      have hge : s.styli[s.activeIdx]? = some ast := by
        rw [← List.get?_eq_getElem?]; exact hg
      have hlt : s.activeIdx < s.styli.length := (List.get?_eq_some.mp hg).1
      have hpos : 0 < s.styli.length := Nat.lt_of_le_of_lt (Nat.zero_le _) hlt
      by_cases h0 : ast.serial = 0
      · have heq : switch_stylus s serial
            = { s with styli := s.styli.set s.activeIdx { ast with serial := serial } } := by
          simp [switch_stylus, hf, hge, hpos, h0]
        rw [heq]
        refine ⟨⟨{ ast with serial := serial },
                 get?_set_self s.styli s.activeIdx _ hlt, rfl⟩, ?_, ?_⟩
        · rintro ⟨st, hm, hser⟩
          exact absurd hser (hnone st hm)
        · intro a2 hg2 _ _
          obtain rfl : ast = a2 := Option.some.inj hg2
          exact ⟨rfl, rfl⟩
      · have heq : switch_stylus s serial
            = { styli := s.styli ++ [{ id := s.nextId, serial := serial }],
                activeIdx := s.styli.length, nextId := s.nextId + 1 } := by
          simp [switch_stylus, hf, hge, h0]
        rw [heq]
        refine ⟨⟨{ id := s.nextId, serial := serial }, get?_append_len s.styli _, rfl⟩, ?_, ?_⟩
        · rintro ⟨st, hm, hser⟩
          exact absurd hser (hnone st hm)
        · intro a2 hg2 hser0 _
          obtain rfl : ast = a2 := Option.some.inj hg2
          exact absurd hser0 h0
    | none =>
      have hge : s.styli[s.activeIdx]? = none := by
        rw [← List.get?_eq_getElem?]; exact hg
      have heq : switch_stylus s serial
          = { styli := s.styli ++ [{ id := s.nextId, serial := serial }],
              activeIdx := s.styli.length, nextId := s.nextId + 1 } := by
        simp [switch_stylus, hf, hge]
      rw [heq]
      refine ⟨⟨{ id := s.nextId, serial := serial }, get?_append_len s.styli _, rfl⟩, ?_, ?_⟩
      · rintro ⟨st, hm, hser⟩
        exact absurd hser (hnone st hm)
      · intro a2 hg2 _ _
        exact absurd hg2 (by simp)

/-- C10 (witness): the statement evaluated on a device manager whose active
stylus still carries serial 0 while another stylus is named. -/
theorem switch_stylus_spec_witness :
    (sampleDMState.styli = [] ∨ sampleDMState.activeIdx < sampleDMState.styli.length)
      ∧ ((∃ ast, (switch_stylus sampleDMState 5).styli.get?
                (switch_stylus sampleDMState 5).activeIdx = some ast ∧ ast.serial = 5)
          ∧ ((∃ st ∈ sampleDMState.styli, st.serial = 5) →
              (switch_stylus sampleDMState 5).styli = sampleDMState.styli)
          ∧ (∀ ast, sampleDMState.styli.get? sampleDMState.activeIdx = some ast →
                ast.serial = 0 → (¬ ∃ st ∈ sampleDMState.styli, st.serial = 5) →
                (switch_stylus sampleDMState 5).styli
                    = sampleDMState.styli.set sampleDMState.activeIdx { ast with serial := 5 }
                  ∧ (switch_stylus sampleDMState 5).activeIdx = sampleDMState.activeIdx)) :=
  ⟨Or.inr (by decide), switch_stylus_spec sampleDMState 5 (Or.inr (by decide))⟩

end Iptsd

